import Mathlib

/-!
# Verification of the scraping-and-normalization pipeline (`scraper.py`)

A shallow embedding of the data model and operations of the repository's
`WebScraper` class (`src/scraper.py`, record types from `src/models.py`),
together with theorems settling the frozen claims about:

* the Skip-Rate Gate (`WebScraper._check_skip_rate`),
* the Entity Normalizer (the per-dimension surrogate-code maps),
* the item validators (`_is_valid_product`, `_is_valid_book`),
* the CSS/LLM merge in `scrape_books`,
* the bridge builders (`BookCategoryBridge`, `FilmAwardBridge`),
* the detail enricher (`_scrape_product_detail`),
* the sample-author fallback (md5-of-title selection), and
* the cross-source orchestrator (`run_all` / `to_dataframes`).

Network fetches, HTML selector evaluation and the LLM service are external
I/O; functions are embedded at the boundary where the code consumes their
results (the already-selected strings / parsed JSON values).  Python floats
are modelled by exact rationals (`ℚ`); for every comparison performed by the
code the two agree on all realizable operand pairs.  `uuid.uuid4()` is
modelled by a deterministic fresh-name supply threaded through the state:
the only facts used about it are that each call yields a new value of the
supply and that its values (hex-and-dash strings in reality) are not of the
form `{parent}_KIND_{index}`.  `datetime.now()` fields are omitted: no claim
mentions capture timestamps.
-/

namespace SemanticTalk

/-! ## Python string primitives

`str.strip`, `str.lower` and the `in` substring test, modelled on the
character list underlying a `String` (the scraped strings are ASCII;
`lower` of an ASCII string in Python is exactly the A–Z shift below). -/

/-- Characters removed by Python's `str.strip()` (ASCII whitespace). -/
def isPySpace (c : Char) : Bool :=
  c = ' ' || c = '\t' || c = '\n' || c = '\r' || c = '\x0b' || c = '\x0c'

/-- Python `s.strip()`. -/
def pyStrip (s : String) : String :=
  String.mk (((s.data.dropWhile isPySpace).reverse.dropWhile isPySpace).reverse)

/-- ASCII lower-casing of one character. -/
def lowerChar (c : Char) : Char :=
  if 'A' ≤ c ∧ c ≤ 'Z' then Char.ofNat (c.toNat + 32) else c

/-- Python `s.lower()` (ASCII fragment). -/
def pyLower (s : String) : String :=
  String.mk (s.data.map lowerChar)

/-- Does `sub` occur as a leading block of `s`? -/
def listLeads : List Char → List Char → Bool
  | _, [] => true
  | [], _ :: _ => false
  | a :: as, b :: bs => a = b && listLeads as bs

/-- Does `sub` occur contiguously inside `s`?  (Python's `sub in s`.) -/
def listHasSub (s sub : List Char) : Bool :=
  match s with
  | [] => sub.isEmpty
  | _ :: rest => listLeads s sub || listHasSub rest sub

/-- Python `sub in s` on strings. -/
def strHasSub (s sub : String) : Bool :=
  listHasSub s.data sub.data

/-! ## C1 — the Skip-Rate Gate

`WebScraper._check_skip_rate(items_found, items_extracted, scraping_method,
failed_samples)` (src/scraper.py lines 191–218).  The raised `ValueError`'s
message interpolates the found count, the extracted count, the skip rate and
`failed_samples[:10]`; we model the raise as an `Except.error` carrying that
payload.  The code computes the rate in percent (`* 100`) and compares with
`5.0`; over exact arithmetic this is equivalent to comparing the ratio with
`1/20`.  List elements of `failed_samples` are source-specific dicts, hence
the type parameter. -/

/-- Diagnostic payload of the fatal skip-rate error. -/
structure SkipRateError (α : Type) where
  itemsFound : Nat
  itemsExtracted : Nat
  skipRate : ℚ
  failedSamples : List α
  deriving Repr, DecidableEq

/-- `WebScraper._check_skip_rate`: returns normally or raises with the
diagnostic payload. -/
def checkSkipRate {α : Type} (itemsFound itemsExtracted : Nat)
    (failedSamples : List α) : Except (SkipRateError α) Unit :=
  if itemsFound = 0 then Except.ok ()
  else
    let skipRate : ℚ := ((itemsFound : ℚ) - (itemsExtracted : ℚ)) / (itemsFound : ℚ) * 100
    if 5 < skipRate then
      Except.error ⟨itemsFound, itemsExtracted, skipRate, failedSamples.take 10⟩
    else
      Except.ok ()

/-- C1: with `found = 0` the Gate returns normally; with `found > 0` it
raises exactly when `(found − accepted) / found > 0.05`, and the raised
error carries the found count, the accepted count, the skip rate and at
most 10 sample rejected records. -/
theorem skip_rate_gate_contract {α : Type} (found extracted : Nat) (samples : List α) :
    (found = 0 → checkSkipRate found extracted samples = Except.ok ()) ∧
    (0 < found →
      (((∃ e, checkSkipRate found extracted samples = Except.error e) ↔
          1/20 < ((found : ℚ) - (extracted : ℚ)) / (found : ℚ)) ∧
        ∀ e, checkSkipRate found extracted samples = Except.error e →
          e.itemsFound = found ∧ e.itemsExtracted = extracted ∧
          e.skipRate = ((found : ℚ) - (extracted : ℚ)) / (found : ℚ) * 100 ∧
          e.failedSamples = samples.take 10 ∧ e.failedSamples.length ≤ 10)) := by
  constructor
  · intro h
    simp [checkSkipRate, h]
  · intro hpos
    have hne : found ≠ 0 := hpos.ne'
    have key : ((5 : ℚ) < ((found : ℚ) - (extracted : ℚ)) / (found : ℚ) * 100) ↔
        1/20 < ((found : ℚ) - (extracted : ℚ)) / (found : ℚ) := by
      constructor <;> intro h <;> linarith
    by_cases hc : (5 : ℚ) < ((found : ℚ) - (extracted : ℚ)) / (found : ℚ) * 100
    · refine ⟨⟨fun _ => key.mp hc,
        fun _ => ⟨⟨found, extracted, ((found : ℚ) - (extracted : ℚ)) / (found : ℚ) * 100,
          samples.take 10⟩, by simp [checkSkipRate, hne, hc]⟩⟩, ?_⟩
      intro e he
      simp only [checkSkipRate, if_neg hne, if_pos hc, Except.error.injEq] at he
      subst he
      refine ⟨rfl, rfl, rfl, rfl, ?_⟩
      simp
    · refine ⟨⟨?_, fun h => absurd (key.mpr h) hc⟩, ?_⟩
      · rintro ⟨e, he⟩
        simp [checkSkipRate, hne, hc] at he
      · intro e he
        simp [checkSkipRate, hne, hc] at he

/-- C1 witness: the spec's own example, `found = 100`, `accepted = 94`
(skip rate 6 % > 5 %): the Gate raises and the payload records the counts. -/
theorem skip_rate_gate_contract_witness :
    (0 : Nat) < 100 ∧
    (1/20 : ℚ) < ((100 : ℚ) - (94 : ℚ)) / (100 : ℚ) ∧
    ∃ e, checkSkipRate 100 94 (["rejected record"]) = Except.error e ∧
      e.itemsFound = 100 ∧ e.itemsExtracted = 94 := by
  have h := skip_rate_gate_contract (α := String) 100 94 ["rejected record"]
  have hpos : (0 : Nat) < 100 := by norm_num
  have hrate : (1/20 : ℚ) < ((100 : ℚ) - (94 : ℚ)) / (100 : ℚ) := by norm_num
  obtain ⟨e, he⟩ := ((h.2 hpos).1).mpr hrate
  exact ⟨hpos, hrate, e, he, ((h.2 hpos).2 e he).1, ((h.2 hpos).2 e he).2.1⟩

end SemanticTalk

namespace SemanticTalk

/-! ## C2 — the Entity Normalizer

Every dimension (product category, author, book category, director, actor,
award category) is normalized by the same inline pattern, e.g.
src/scraper.py lines 560–568:

    if category_name not in self.product_categories:
        cat_cd = f"CAT_{len(self.product_categories) + 1:04d}"
        self.product_categories[category_name] = ProductCategory(...)
    cat_cd = self.product_categories[category_name].cat_cd

We model a dimension dict as an insertion-ordered association list from
natural name to surrogate code (Python dicts preserve insertion order), and
the pattern as `resolve`.  First the decimal formatting `f"{n:04d}"`. -/

/-- Decimal digit character (`'0'`–`'9'`). -/
def digitChar (d : Nat) : Char := Char.ofNat (48 + d)

/-- Big-endian decimal digits of `n`, prepended to `acc`; structural fuel
(`n + 1` suffices) keeps the definition kernel-computable. -/
def natDecimalAux : Nat → Nat → List Char → List Char
  | 0, _, acc => acc
  | fuel + 1, n, acc =>
      if n < 10 then digitChar n :: acc
      else natDecimalAux fuel (n / 10) (digitChar (n % 10) :: acc)

/-- Decimal rendering of a natural number (Python `str(n)` / `"%d" % n`). -/
def natDecimal (n : Nat) : String := String.mk (natDecimalAux (n + 1) n [])

/-- Zero-padding to width `w` (the `0`-fill of Python's `f"{n:04d}"`). -/
def padZeros (w : Nat) (s : String) : String :=
  String.mk (List.replicate (w - s.data.length) '0' ++ s.data)

/-- The surrogate code `f"{pre}_{n:04d}"`. -/
def mkCode (pre : String) (n : Nat) : String :=
  pre ++ "_" ++ padZeros 4 (natDecimal n)

/-- Value of a decimal digit character. -/
def decVal (c : Char) : Nat := c.toNat - 48

/-- Parse a digit list back to the number it denotes. -/
def parseDec (l : List Char) : Nat := l.foldl (fun acc c => acc * 10 + decVal c) 0

theorem natDecimalAux_fuel {fuel1 fuel2 n : Nat} (acc : List Char)
    (h1 : n < fuel1) (h2 : n < fuel2) :
    natDecimalAux fuel1 n acc = natDecimalAux fuel2 n acc := by
  induction n using Nat.strong_induction_on generalizing fuel1 fuel2 acc with
  | _ n ih =>
    obtain ⟨f1, rfl⟩ : ∃ f, fuel1 = f + 1 := ⟨fuel1 - 1, by omega⟩
    obtain ⟨f2, rfl⟩ : ∃ f, fuel2 = f + 1 := ⟨fuel2 - 1, by omega⟩
    by_cases hn : n < 10
    · simp [natDecimalAux, hn]
    · have hd : n / 10 < n := Nat.div_lt_self (by omega) (by omega)
      simp only [natDecimalAux, if_neg hn]
      exact ih (n / 10) hd _ (by omega) (by omega)

theorem natDecimalAux_append (n : Nat) (acc : List Char) :
    natDecimalAux (n + 1) n acc = natDecimalAux (n + 1) n [] ++ acc := by
  induction n using Nat.strong_induction_on generalizing acc with
  | _ n ih =>
    by_cases hn : n < 10
    · simp [natDecimalAux, hn]
    · have hd : n / 10 < n := Nat.div_lt_self (by omega) (by omega)
      simp only [natDecimalAux, if_neg hn]
      rw [natDecimalAux_fuel (n := n / 10) _ (by omega) (show n / 10 < n / 10 + 1 by omega),
        natDecimalAux_fuel (n := n / 10) [digitChar (n % 10)] (by omega)
          (show n / 10 < n / 10 + 1 by omega),
        ih (n / 10) hd, ih (n / 10) hd [digitChar (n % 10)]]
      simp

theorem decVal_digitChar {d : Nat} (h : d < 10) : decVal (digitChar d) = d := by
  interval_cases d <;> decide

theorem parseDec_natDecimal (n : Nat) : parseDec (natDecimal n).data = n := by
  induction n using Nat.strong_induction_on with
  | _ n ih =>
    by_cases hn : n < 10
    · simp only [natDecimal, natDecimalAux, if_pos hn, parseDec, List.foldl_cons,
        List.foldl_nil, Nat.zero_mul, Nat.zero_add]
      exact decVal_digitChar hn
    · have hd : n / 10 < n := Nat.div_lt_self (by omega) (by omega)
      have step : (natDecimal n).data =
          (natDecimal (n / 10)).data ++ [digitChar (n % 10)] := by
        show natDecimalAux (n + 1) n [] =
          natDecimalAux (n / 10 + 1) (n / 10) [] ++ [digitChar (n % 10)]
        rw [show natDecimalAux (n + 1) n [] =
            natDecimalAux n (n / 10) [digitChar (n % 10)] by simp [natDecimalAux, hn],
          natDecimalAux_fuel (n := n / 10) _ (by omega) (show n / 10 < n / 10 + 1 by omega),
          natDecimalAux_append]
      rw [step, parseDec, List.foldl_append]
      have hmod : n % 10 < 10 := Nat.mod_lt _ (by omega)
      simp only [List.foldl_cons, List.foldl_nil]
      rw [show List.foldl (fun acc c => acc * 10 + decVal c) 0 (natDecimal (n / 10)).data =
          parseDec (natDecimal (n / 10)).data from rfl, ih (n / 10) hd,
        decVal_digitChar hmod]
      omega

theorem parseDec_replicate_zero (k : Nat) (l : List Char) :
    parseDec (List.replicate k '0' ++ l) = parseDec l := by
  induction k with
  | zero => simp
  | succ k ihk =>
    have h0 : decVal '0' = 0 := by decide
    simpa [List.replicate_succ, parseDec, h0] using ihk

theorem parseDec_padZeros (w : Nat) (n : Nat) :
    parseDec (padZeros w (natDecimal n)).data = n := by
  rw [show (padZeros w (natDecimal n)).data =
      List.replicate (w - (natDecimal n).data.length) '0' ++ (natDecimal n).data from rfl,
    parseDec_replicate_zero, parseDec_natDecimal]

theorem mkCode_injective (pre : String) {a b : Nat} (h : mkCode pre a = mkCode pre b) :
    a = b := by
  have hdata : (mkCode pre a).data = (mkCode pre b).data := congrArg String.data h
  simp only [mkCode, String.data_append, List.append_assoc] at hdata
  have h2 : (padZeros 4 (natDecimal a)).data = (padZeros 4 (natDecimal b)).data :=
    List.append_cancel_left (List.append_cancel_left hdata)
  have := parseDec_padZeros 4 a
  rw [h2, parseDec_padZeros] at this
  omega

/-- One dimension's dict: insertion-ordered natural name ↦ surrogate code. -/
abbrev DimMap := List (String × String)

/-- Python `name in dict` / `dict[name].code`. -/
def lookupName (m : DimMap) (name : String) : Option String :=
  (m.find? (fun p => p.1 == name)).map (·.2)

/-- The normalization pattern: return the existing code, or mint
`f"{pre}_{len(dict)+1:04d}"` and append the entry (first-seen order). -/
def resolve (pre : String) (m : DimMap) (name : String) : String × DimMap :=
  match lookupName m name with
  | some cd => (cd, m)
  | none => (mkCode pre (m.length + 1), m ++ [(name, mkCode pre (m.length + 1))])

/-- The dimension state after one run processes `names` in order. -/
def resolveAll (pre : String) (names : List String) : DimMap :=
  names.foldl (fun m n => (resolve pre m n).2) []

/-- Distinct names seen so far, in first-seen order. -/
def seenNames (names : List String) : List String :=
  names.foldl (fun ks n => if n ∈ ks then ks else ks ++ [n]) []

end SemanticTalk

namespace SemanticTalk

theorem lookupName_eq_none {m : DimMap} {name : String} :
    lookupName m name = none ↔ ∀ p ∈ m, p.1 ≠ name := by
  simp [lookupName, List.find?_eq_none]

theorem lookupName_mem {m : DimMap} {name cd : String}
    (h : lookupName m name = some cd) : (name, cd) ∈ m := by
  simp only [lookupName, Option.map_eq_some'] at h
  obtain ⟨p, hp, h2⟩ := h
  have h1 := List.mem_of_find?_eq_some hp
  have h3 : p.1 = name := by simpa using List.find?_some hp
  cases p
  simp only at h2 h3
  subst h2; subst h3
  exact h1

theorem lookupName_append_left {m : DimMap} {name cd : String} (m2 : DimMap)
    (h : lookupName m name = some cd) : lookupName (m ++ m2) name = some cd := by
  simp only [lookupName, Option.map_eq_some'] at h ⊢
  obtain ⟨p, hp, h2⟩ := h
  exact ⟨p, by rw [List.find?_append, hp]; rfl, h2⟩

theorem resolve_lookup_self (pre : String) (m : DimMap) (name : String) :
    lookupName (resolve pre m name).2 name = some (resolve pre m name).1 := by
  cases h : lookupName m name with
  | some cd => simp [resolve, h]
  | none =>
    have hf : m.find? (fun p => p.1 == name) = none := by
      simp only [lookupName, Option.map_eq_none'] at h
      exact h
    simp [resolve, h, lookupName, List.find?_append, hf, List.find?]

theorem resolve_preserves (pre : String) (m : DimMap) {x cd : String} (y : String)
    (h : lookupName m x = some cd) : lookupName (resolve pre m y).2 x = some cd := by
  cases hy : lookupName m y with
  | some c => simpa [resolve, hy]
  | none => simpa [resolve, hy] using lookupName_append_left _ h

/-- Invariant of a dimension dict reachable in one run: the stored codes
are, in order, `mkCode pre 1, mkCode pre 2, …`. -/
def CodesWf (pre : String) (m : DimMap) : Prop :=
  m.map Prod.snd = (List.range m.length).map (fun i => mkCode pre (i + 1))

theorem codesWf_resolve (pre : String) (m : DimMap) (name : String)
    (h : CodesWf pre m) : CodesWf pre (resolve pre m name).2 := by
  cases hl : lookupName m name with
  | some cd => simpa [resolve, hl]
  | none =>
    simp only [resolve, hl, CodesWf, List.map_append, List.length_append,
      List.length_cons, List.length_nil]
    rw [h, show m.length + 1 = m.length + 1 from rfl, List.range_succ]
    simp

theorem codesWf_foldl (pre : String) (names : List String) (m : DimMap)
    (h : CodesWf pre m) :
    CodesWf pre (names.foldl (fun m n => (resolve pre m n).2) m) := by
  induction names generalizing m with
  | nil => exact h
  | cons a rest ih => exact ih _ (codesWf_resolve pre m a h)

theorem codesWf_resolveAll (pre : String) (names : List String) :
    CodesWf pre (resolveAll pre names) :=
  codesWf_foldl pre names [] (by simp [CodesWf])

theorem keys_foldl (pre : String) (names : List String) (m : DimMap) :
    (names.foldl (fun m n => (resolve pre m n).2) m).map Prod.fst =
      names.foldl (fun ks n => if n ∈ ks then ks else ks ++ [n]) (m.map Prod.fst) := by
  induction names generalizing m with
  | nil => rfl
  | cons a rest ih =>
    rw [List.foldl_cons, List.foldl_cons, ih]
    congr 1
    cases h : lookupName m a with
    | some cd =>
      have hmem : a ∈ m.map Prod.fst :=
        List.mem_map.mpr ⟨_, lookupName_mem h, rfl⟩
      simp [resolve, h, hmem]
    | none =>
      have hmem : a ∉ m.map Prod.fst := by
        intro hc
        obtain ⟨p, hp, hfst⟩ := List.mem_map.mp hc
        exact (lookupName_eq_none.mp h) p hp hfst
      simp [resolve, h, hmem]

theorem keys_resolveAll (pre : String) (names : List String) :
    (resolveAll pre names).map Prod.fst = seenNames names :=
  keys_foldl pre names []

theorem lookupName_foldl_preserves (pre : String) (names : List String) (m : DimMap)
    {x cd : String} (h : lookupName m x = some cd) :
    lookupName (names.foldl (fun m n => (resolve pre m n).2) m) x = some cd := by
  induction names generalizing m with
  | nil => exact h
  | cons a rest ih => exact ih _ (resolve_preserves pre m a h)

theorem mem_lookup_foldl (pre : String) (names : List String) :
    ∀ (m : DimMap) {n : String}, n ∈ names →
      ∃ cd, lookupName (names.foldl (fun m n => (resolve pre m n).2) m) n = some cd := by
  induction names with
  | nil => intro m n h; simp at h
  | cons a rest ih =>
    intro m n h
    rw [List.foldl_cons]
    rcases List.mem_cons.mp h with rfl | hrest
    · exact ⟨_, lookupName_foldl_preserves pre rest _ (resolve_lookup_self pre m n)⟩
    · exact ih _ hrest

theorem mem_lookup_resolveAll (pre : String) {names : List String} {n : String}
    (h : n ∈ names) : ∃ cd, lookupName (resolveAll pre names) n = some cd :=
  mem_lookup_foldl pre names [] h

/-- Distinct entries of a run-reachable dimension dict carry distinct codes. -/
theorem codesWf_snd_injective (pre : String) {m : DimMap} (h : CodesWf pre m)
    {p q : String × String} (hp : p ∈ m) (hq : q ∈ m) (hpq : p.2 = q.2) : p = q := by
  have hnd : (m.map Prod.snd).Nodup := by
    rw [h]
    have hinj : Function.Injective (fun i => mkCode pre (i + 1)) := by
      intro a b hab
      have := mkCode_injective pre hab
      omega
    exact List.Nodup.map hinj (List.nodup_range _)
  exact List.inj_on_of_nodup_map hnd hp hq hpq

end SemanticTalk

namespace SemanticTalk

/-- C2: in any run state, a first-sighted name is assigned
`f"{pre}_{sequence:04d}"` where `sequence` is the 1-based count of distinct
names seen so far for that dimension; a repeat sighting returns the
existing code and leaves the dict unchanged; resolution is stable across
repeated calls; and distinct names resolve to distinct codes. -/
theorem entity_normalizer_contract (pre name n1 n2 : String) (names : List String)
    (h1 : n1 ∈ names) (h2 : n2 ∈ names) (hne : n1 ≠ n2) :
    (lookupName (resolveAll pre names) name = none →
      (resolve pre (resolveAll pre names) name).1 =
        mkCode pre ((seenNames names).length + 1)) ∧
    (∀ cd, lookupName (resolveAll pre names) name = some cd →
      resolve pre (resolveAll pre names) name = (cd, resolveAll pre names)) ∧
    (resolve pre ((resolve pre (resolveAll pre names) name).2) name).1 =
      (resolve pre (resolveAll pre names) name).1 ∧
    (resolve pre (resolveAll pre names) n1).1 ≠
      (resolve pre (resolveAll pre names) n2).1 := by
  refine ⟨?_, ?_, ?_, ?_⟩
  · intro h
    have hlen : (resolveAll pre names).length = (seenNames names).length := by
      rw [← keys_resolveAll pre names, List.length_map]
    simp [resolve, h, hlen]
  · intro cd h
    simp [resolve, h]
  · rcases hsolve : resolve pre (resolveAll pre names) name with ⟨cd, m2⟩
    have hself := resolve_lookup_self pre (resolveAll pre names) name
    rw [hsolve] at hself
    simp [resolve, hself]
  · obtain ⟨c1, hc1⟩ := mem_lookup_resolveAll pre h1
    obtain ⟨c2, hc2⟩ := mem_lookup_resolveAll pre h2
    rw [show (resolve pre (resolveAll pre names) n1).1 = c1 by simp [resolve, hc1],
      show (resolve pre (resolveAll pre names) n2).1 = c2 by simp [resolve, hc2]]
    intro heq
    have hm1 := lookupName_mem hc1
    have hm2 := lookupName_mem hc2
    have hpq := codesWf_snd_injective pre (codesWf_resolveAll pre names) hm1 hm2
      (by simpa using heq)
    exact hne (congrArg Prod.fst hpq)

/-- C2 witness: processing `["Gadgets", "Food", "Gadgets"]` under the
`CAT` dimension, `"Gadgets"` and `"Food"` resolve to distinct codes, and a
fresh third name would receive `CAT_0003`. -/
theorem entity_normalizer_contract_witness :
    "Gadgets" ∈ ["Gadgets", "Food", "Gadgets"] ∧
    "Food" ∈ ["Gadgets", "Food", "Gadgets"] ∧
    "Gadgets" ≠ "Food" ∧
    (resolve "CAT" (resolveAll "CAT" ["Gadgets", "Food", "Gadgets"]) "Gadgets").1 ≠
      (resolve "CAT" (resolveAll "CAT" ["Gadgets", "Food", "Gadgets"]) "Food").1 := by
  have h := entity_normalizer_contract "CAT" "Apparel" "Gadgets" "Food"
    ["Gadgets", "Food", "Gadgets"] (by decide) (by decide) (by decide)
  exact ⟨by decide, by decide, by decide, h.2.2.2⟩

example : (resolve "CAT" (resolveAll "CAT" ["Gadgets", "Food", "Gadgets"]) "Gadgets").1 =
    "CAT_0001" := by decide

example : (resolve "CAT" (resolveAll "CAT" ["Gadgets", "Food", "Gadgets"]) "Apparel").1 =
    "CAT_0003" := by decide

example : mkCode "AUTH" 12 = "AUTH_0012" := by decide

example : mkCode "AUTH" 123456 = "AUTH_123456" := by decide

end SemanticTalk

namespace SemanticTalk

/-! ## C4 — the product validator

`WebScraper._is_valid_product` (src/scraper.py lines 137–161).  The dict
fields it reads are modelled directly; `item.get("name", "")` /
`item.get("price", 0)` make absent fields `""` / `0`, so `name : String`
and `price : ℚ` suffice, while `category` distinguishes `None`. -/

/-- A candidate product record (the dict handed to `_is_valid_product`). -/
structure ProductItem where
  name : String
  price : ℚ
  category : Option String
  product_id : Option String
  deriving Repr, DecidableEq

/-- The navigation-keyword denylist of `_is_valid_product`. -/
def navKeywords : List String :=
  ["docs", "api", "login", "cart", "testimonials", "file download",
   "graphql", "sitemap", "blog", "github"]

/-- `category = item.get("category", "").strip().lower() if item.get("category") else ""`. -/
def normCategory (item : ProductItem) : String :=
  match item.category with
  | some c => if c = "" then "" else pyLower (pyStrip c)
  | none => ""

/-- `WebScraper._is_valid_product`. -/
def isValidProduct (item : ProductItem) : Bool :=
  if pyStrip item.name = "" then false
  else if item.price ≤ 0 then false
  else if navKeywords.any (fun k => strHasSub (pyLower (pyStrip item.name)) k) then false
  else if normCategory item ≠ "" ∧ normCategory item = "unknown" then false
  else true

/-- C4 counterexample: `{name: "Widget", price: 1, category: "Unknown"}`
has a non-empty name matching no navigation keyword and a strictly positive
price, yet the validator rejects it (the claim asserts acceptance). -/
theorem product_validator_price_only_false :
    pyStrip (ProductItem.mk "Widget" 1 (some "Unknown") (some "p1")).name ≠ "" ∧
    navKeywords.any (fun k =>
      strHasSub (pyLower (pyStrip (ProductItem.mk "Widget" 1 (some "Unknown") (some "p1")).name)) k)
      = false ∧
    0 < (ProductItem.mk "Widget" 1 (some "Unknown") (some "p1")).price ∧
    isValidProduct (ProductItem.mk "Widget" 1 (some "Unknown") (some "p1")) = false := by
  decide

/-- C4 (amended): for every candidate whose stripped name is non-empty and
whose lowered name matches no navigation keyword, the validator accepts it
iff the price is strictly positive and the normalized category (stripped,
lowered; `""` when absent) is not the sentinel `"unknown"`; in particular
`price = 0` is rejected and an otherwise-valid `price = 0.01` accepted. -/
theorem product_validator_boundary (item : ProductItem)
    (hname : ¬ pyStrip item.name = "")
    (hnav : ¬ navKeywords.any (fun k => strHasSub (pyLower (pyStrip item.name)) k) = true) :
    isValidProduct item = true ↔
      (0 < item.price ∧ normCategory item ≠ "unknown") := by
  rw [isValidProduct, if_neg hname]
  by_cases hp : item.price ≤ 0
  · rw [if_pos hp]
    simp only [Bool.false_eq_true, false_iff, not_and]
    intro hlt
    exact absurd hp (not_le.mpr hlt)
  · rw [if_neg hp, if_neg hnav]
    by_cases hc : normCategory item ≠ "" ∧ normCategory item = "unknown"
    · rw [if_pos hc]
      simp only [Bool.false_eq_true, false_iff, not_and]
      intro _
      simpa using hc.2
    · rw [if_neg hc]
      simp only [true_iff]
      exact ⟨not_le.mp hp, fun h => hc ⟨by rw [h]; decide, h⟩⟩

end SemanticTalk

namespace SemanticTalk

/-- The exact rational `0.01` as a kernel-computable structure literal. -/
def cent : ℚ := ⟨1, 100, by norm_num, Nat.coprime_one_left 100⟩

theorem cent_eq : cent = 0.01 := by
  rw [cent, Rat.mk'_eq_divInt, Rat.divInt_eq_div]; norm_num

/-- C4 witness: an otherwise-valid candidate priced `0.01` is accepted, and
the same candidate priced `0` is rejected. -/
theorem product_validator_boundary_witness :
    cent = 0.01 ∧
    isValidProduct (ProductItem.mk "Box of Chocolate Candy" cent (some "Gadgets") (some "p1"))
      = true ∧
    isValidProduct (ProductItem.mk "Box of Chocolate Candy" 0 (some "Gadgets") (some "p1"))
      = false := by
  have h1 := product_validator_boundary
    (ProductItem.mk "Box of Chocolate Candy" cent (some "Gadgets") (some "p1"))
    (by decide) (by decide)
  have h0 := product_validator_boundary
    (ProductItem.mk "Box of Chocolate Candy" 0 (some "Gadgets") (some "p1"))
    (by decide) (by decide)
  refine ⟨cent_eq, h1.mpr ⟨by decide, by decide⟩, ?_⟩
  have : ¬ isValidProduct (ProductItem.mk "Box of Chocolate Candy" 0 (some "Gadgets") (some "p1"))
      = true := by
    intro hv
    exact absurd (h0.mp hv).1 (by norm_num)
  exact Bool.not_eq_true _ |>.mp this

/-! ## C5 — the book validator

`WebScraper._is_valid_book` (src/scraper.py lines 163–176).  `title` and
`author` come from dict lookups that can yield `None`, modelled as
`Option String`; the remaining fields of the candidate dict are carried for
the book pipeline (C7) but not read by the validator.  `price` is carried
already parsed (the code parses the currency string just before building the
`Book` record; no claim touches its value), `categories` is the
post-enrichment category list, `detailAuthor`/`detailFetched` describe the
outcome of the detail-page author strategies (external fetches). -/

/-- A candidate book record. -/
structure BookItem where
  title : Option String
  author : Option String
  detailAuthor : Option String
  detailFetched : Bool
  categories : List String
  price : ℚ
  availability : String
  rating : Nat
  description : String
  deriving Repr, DecidableEq

/-- `title = item.get("title", "").strip() if item.get("title") else ""`. -/
def normTitle (item : BookItem) : String :=
  match item.title with
  | some t => if t = "" then "" else pyStrip t
  | none => ""

/-- `author = item.get("author", "").strip() if item.get("author") else ""`. -/
def normAuthor (item : BookItem) : String :=
  match item.author with
  | some a => if a = "" then "" else pyStrip a
  | none => ""

/-- `WebScraper._is_valid_book`. -/
def isValidBook (item : BookItem) : Bool :=
  if normTitle item = "" then false
  else if normAuthor item ≠ "" ∧ pyLower (normAuthor item) = "unknown" then false
  else true

/-- C5: a candidate with a non-empty title is rejected when its author is
the sentinel `"Unknown"` and accepted when the author is missing (`None`). -/
theorem book_validator_sentinel (item : BookItem) (ht : ¬ normTitle item = "") :
    (item.author = some "Unknown" → isValidBook item = false) ∧
    (item.author = none → isValidBook item = true) := by
  constructor
  · intro ha
    have hna : normAuthor item = "Unknown" := by
      rw [normAuthor, ha]; decide
    rw [isValidBook, if_neg ht, if_pos (by rw [hna]; exact ⟨by decide, by decide⟩)]
  · intro ha
    have hna : normAuthor item = "" := by rw [normAuthor, ha]
    rw [isValidBook, if_neg ht, if_neg (by rw [hna]; simp)]

/-- C5 witness: a concrete titled candidate with author `"Unknown"` is
rejected; the same candidate with author `None` is accepted. -/
theorem book_validator_sentinel_witness :
    isValidBook (BookItem.mk (some "Sharp Objects") (some "Unknown") none false []
      10 "In stock" 4 "") = false ∧
    isValidBook (BookItem.mk (some "Sharp Objects") none none false []
      10 "In stock" 4 "") = true := by
  refine ⟨(book_validator_sentinel _ (by decide)).1 rfl,
    (book_validator_sentinel _ (by decide)).2 rfl⟩

end SemanticTalk

namespace SemanticTalk

/-! ## C6 — deterministic/LLM merge in `scrape_books`

`_extract_book_css` (src/scraper.py lines 265–325) builds the deterministic
candidate from the selector results; the HTML selection itself is external,
so the function is embedded at the boundary of the already-selected strings.
Whenever it returns a record, that record has `author = None`,
`categories = []` and `description = ""` by construction.  The merge with
the Structured Extraction Service's record is lines 861–868:

    book_data["author"] = llm_data.get("author") or book_data.get("author")
    book_data["categories"] = llm_data.get("categories") or book_data.get("categories", [])

(the remaining fields of `book_data` are left untouched). -/

/-- The dict returned by `_extract_book_css` (price still a string there). -/
structure CssBook where
  title : String
  price : String
  author : Option String
  categories : List String
  availability : String
  rating : Nat
  description : String
  book_url : String
  deriving Repr, DecidableEq

/-- `_extract_book_css`, at the boundary of the selected strings: returns a
candidate iff the selected title is non-empty. -/
def extract_book_css (title priceStr availability : String) (rating : Nat)
    (bookUrl : String) : Option CssBook :=
  if title ≠ "" then
    some ⟨title, priceStr, none, [], availability, rating, "", bookUrl⟩
  else
    none

/-- The record parsed from the Structured Extraction Service's JSON (only
the two fields the merge reads; `none` = key absent). -/
structure LlmBook where
  author : Option String
  categories : Option (List String)
  deriving Repr, DecidableEq

/-- Python `a or b` for an optional string (`None` and `""` are falsy). -/
def pyOrStr (a b : Option String) : Option String :=
  match a with
  | some s => if s = "" then b else some s
  | none => b

/-- Python `a or b` where `a` is an optional list (`None` and `[]` falsy). -/
def pyOrList (a : Option (List String)) (b : List String) : List String :=
  match a with
  | some l => if l = [] then b else l
  | none => b

/-- The CSS/LLM merge of `scrape_books` (lines 861–868). -/
def mergeCssLlm (css : CssBook) (llm : LlmBook) : CssBook :=
  { css with
    author := pyOrStr llm.author css.author
    categories := pyOrList llm.categories css.categories }

/-- C6: in the merged record every deterministic (CSS) field is kept when
non-empty, and a service (LLM) value is taken only where the deterministic
value is absent or empty. -/
theorem merge_precedence (title priceStr availability : String) (rating : Nat)
    (bookUrl : String) (css : CssBook) (llm : LlmBook)
    (h : extract_book_css title priceStr availability rating bookUrl = some css) :
    (mergeCssLlm css llm).title = css.title ∧
    (mergeCssLlm css llm).price = css.price ∧
    (mergeCssLlm css llm).availability = css.availability ∧
    (mergeCssLlm css llm).rating = css.rating ∧
    (mergeCssLlm css llm).description = css.description ∧
    (mergeCssLlm css llm).book_url = css.book_url ∧
    (∀ a, css.author = some a → a ≠ "" → (mergeCssLlm css llm).author = css.author) ∧
    (css.categories ≠ [] → (mergeCssLlm css llm).categories = css.categories) ∧
    ((mergeCssLlm css llm).author ≠ css.author →
      css.author = none ∧ (mergeCssLlm css llm).author = llm.author) ∧
    ((mergeCssLlm css llm).categories ≠ css.categories →
      css.categories = [] ∧ some (mergeCssLlm css llm).categories = llm.categories) := by
  have hcss : css.author = none ∧ css.categories = [] := by
    rw [extract_book_css] at h
    by_cases ht : title ≠ ""
    · rw [if_pos ht] at h
      cases Option.some.inj h
      exact ⟨rfl, rfl⟩
    · rw [if_neg ht] at h
      exact absurd h (by simp)
  obtain ⟨hauth, hcats⟩ := hcss
  refine ⟨rfl, rfl, rfl, rfl, rfl, rfl, ?_, ?_, ?_, ?_⟩
  · intro a ha _
    rw [ha] at hauth
    exact absurd hauth (by simp)
  · intro hne
    exact absurd hcats hne
  · intro hne
    refine ⟨hauth, ?_⟩
    cases hllm : llm.author with
    | none =>
      exact absurd (by simp [mergeCssLlm, pyOrStr, hllm]) hne
    | some s =>
      by_cases hs : s = ""
      · exact absurd (by simp [mergeCssLlm, pyOrStr, hllm, hs, hauth]) hne
      · simp [mergeCssLlm, pyOrStr, hllm, hs]
  · intro hne
    refine ⟨hcats, ?_⟩
    cases hllm : llm.categories with
    | none =>
      exact absurd (by simp [mergeCssLlm, pyOrList, hllm]) hne
    | some l =>
      by_cases hl : l = []
      · exact absurd (by simp [mergeCssLlm, pyOrList, hllm, hl, hcats]) hne
      · simp [mergeCssLlm, pyOrList, hllm, hl]

/-- C6 witness: a concrete deterministic record (no author, no categories)
merged with a service record; the title is kept and the author is filled
from the service. -/
theorem merge_precedence_witness :
    extract_book_css "A Light in the Attic" "51.77" "In stock" 3 "u" =
      some (CssBook.mk "A Light in the Attic" "51.77" none [] "In stock" 3 "" "u") ∧
    (mergeCssLlm (CssBook.mk "A Light in the Attic" "51.77" none [] "In stock" 3 "" "u")
        (LlmBook.mk (some "Louise Rennison") (some ["Poetry"]))).title =
      "A Light in the Attic" ∧
    (mergeCssLlm (CssBook.mk "A Light in the Attic" "51.77" none [] "In stock" 3 "" "u")
        (LlmBook.mk (some "Louise Rennison") (some ["Poetry"]))).author =
      some "Louise Rennison" := by
  have h := merge_precedence "A Light in the Attic" "51.77" "In stock" 3 "u"
    (CssBook.mk "A Light in the Attic" "51.77" none [] "In stock" 3 "" "u")
    (LlmBook.mk (some "Louise Rennison") (some ["Poetry"])) (by decide)
  exact ⟨by decide, h.1, by decide⟩

end SemanticTalk

namespace SemanticTalk

/-! ## C10 — the md5 sample-author fallback

src/scraper.py lines 1045–1061: when every author-extraction strategy has
failed, `scrape_books` assigns

    title_hash = int(hashlib.md5(item.get("title", "").encode()).hexdigest(), 16)
    author_name = sample_authors[title_hash % len(sample_authors)]

We embed MD5 (RFC 1321) over the UTF-8 bytes of the title, in `Nat`
arithmetic mod `2^32`, kept structurally recursive so concrete digests
evaluate in the kernel. -/

/-- Truncation to a 32-bit word. -/
def w32 (n : Nat) : Nat := n % 4294967296

/-- Bitwise complement within 32 bits. -/
def natNot32 (n : Nat) : Nat := 4294967295 - w32 n

/-- 32-bit left rotation by `c` (for `0 ≤ c < 32`). -/
def rotl32 (x c : Nat) : Nat :=
  w32 (Nat.lor (Nat.shiftLeft (w32 x) c) (Nat.shiftRight (w32 x) (32 - c)))

/-- UTF-8 encoding of one character (Python `str.encode()`). -/
def utf8Bytes (c : Char) : List Nat :=
  let n := c.toNat
  if n < 128 then [n]
  else if n < 2048 then [192 + n / 64, 128 + n % 64]
  else if n < 65536 then [224 + n / 4096, 128 + (n / 64) % 64, 128 + n % 64]
  else [240 + n / 262144, 128 + (n / 4096) % 64, 128 + (n / 64) % 64, 128 + n % 64]

/-- UTF-8 bytes of a string. -/
def strBytes (s : String) : List Nat := (s.data.map utf8Bytes).flatten

/-- Four little-endian bytes of a 32-bit word. -/
def leBytes4 (x : Nat) : List Nat :=
  [x % 256, (x / 256) % 256, (x / 65536) % 256, (x / 16777216) % 256]

/-- Eight little-endian bytes of a 64-bit length field. -/
def leBytes8 (x : Nat) : List Nat :=
  leBytes4 (x % 4294967296) ++ leBytes4 (x / 4294967296)

/-- MD5 padding: `0x80`, zeros to 56 mod 64, then the bit length. -/
def md5Pad (msg : List Nat) : List Nat :=
  msg ++ [128] ++ List.replicate ((120 - (msg.length + 1) % 64) % 64) 0 ++
    leBytes8 ((msg.length * 8) % 18446744073709551616)

/-- Per-round sine constants `K[i] = floor(|sin(i+1)| * 2^32)`. -/
def md5K : List Nat :=
  [3614090360, 3905402710, 606105819, 3250441966, 4118548399, 1200080426, 2821735955, 4249261313,
   1770035416, 2336552879, 4294925233, 2304563134, 1804603682, 4254626195, 2792965006, 1236535329,
   4129170786, 3225465664, 643717713, 3921069994, 3593408605, 38016083, 3634488961, 3889429448,
   568446438, 3275163606, 4107603335, 1163531501, 2850285829, 4243563512, 1735328473, 2368359562,
   4294588738, 2272392833, 1839030562, 4259657740, 2763975236, 1272893353, 4139469664, 3200236656,
   681279174, 3936430074, 3572445317, 76029189, 3654602809, 3873151461, 530742520, 3299628645,
   4096336452, 1126891415, 2878612391, 4237533241, 1700485571, 2399980690, 4293915773, 2240044497,
   1873313359, 4264355552, 2734768916, 1309151649, 4149444226, 3174756917, 718787259, 3951481745]

/-- Per-round shift amounts. -/
def md5S : List Nat :=
  [7, 12, 17, 22, 7, 12, 17, 22,
   7, 12, 17, 22, 7, 12, 17, 22,
   5, 9, 14, 20, 5, 9, 14, 20,
   5, 9, 14, 20, 5, 9, 14, 20,
   4, 11, 16, 23, 4, 11, 16, 23,
   4, 11, 16, 23, 4, 11, 16, 23,
   6, 10, 15, 21, 6, 10, 15, 21,
   6, 10, 15, 21, 6, 10, 15, 21]

/-- The nonlinear function of round `i`. -/
def md5Mix (i b c d : Nat) : Nat :=
  if i < 16 then Nat.lor (Nat.land b c) (Nat.land (natNot32 b) d)
  else if i < 32 then Nat.lor (Nat.land d b) (Nat.land (natNot32 d) c)
  else if i < 48 then Nat.xor b (Nat.xor c d)
  else Nat.xor c (Nat.lor b (natNot32 d))

/-- The message-word index of round `i`. -/
def md5MsgIdx (i : Nat) : Nat :=
  if i < 16 then i
  else if i < 32 then (5 * i + 1) % 16
  else if i < 48 then (3 * i + 5) % 16
  else (7 * i) % 16

/-- Little-endian word `i` of a 64-byte chunk. -/
def leWord (chunk : List Nat) (i : Nat) : Nat :=
  chunk.getD (4 * i) 0 + 256 * chunk.getD (4 * i + 1) 0 +
    65536 * chunk.getD (4 * i + 2) 0 + 16777216 * chunk.getD (4 * i + 3) 0

/-- One MD5 round on the running `(a, b, c, d)` state. -/
def md5Round (chunk : List Nat) (st : Nat × Nat × Nat × Nat) (i : Nat) :
    Nat × Nat × Nat × Nat :=
  let t := w32 (md5Mix i st.2.1 st.2.2.1 st.2.2.2 + st.1 + md5K.getD i 0 +
    leWord chunk (md5MsgIdx i))
  (st.2.2.2, w32 (st.2.1 + rotl32 t (md5S.getD i 0)), st.2.1, st.2.2.1)

/-- Compress one 64-byte chunk into the state. -/
def md5Chunk (st : Nat × Nat × Nat × Nat) (chunk : List Nat) :
    Nat × Nat × Nat × Nat :=
  let r := (List.range 64).foldl (md5Round chunk) st
  (w32 (st.1 + r.1), w32 (st.2.1 + r.2.1), w32 (st.2.2.1 + r.2.2.1),
    w32 (st.2.2.2 + r.2.2.2))

/-- Fold all 64-byte chunks (structural fuel keeps this kernel-computable;
`bytes.length + 1` steps always suffice). -/
def md5ChunksAux : Nat → List Nat → Nat × Nat × Nat × Nat → Nat × Nat × Nat × Nat
  | 0, _, st => st
  | _ + 1, [], st => st
  | fuel + 1, b :: rest, st =>
      md5ChunksAux fuel (rest.drop 63) (md5Chunk st ((b :: rest).take 64))

/-- The MD5 initial state `(0x67452301, 0xefcdab89, 0x98badcfe, 0x10325476)`. -/
def md5Init : Nat × Nat × Nat × Nat := (1732584193, 4023233417, 2562383102, 271733878)

/-- The 16 digest bytes of a string's MD5. -/
def md5Digest (s : String) : List Nat :=
  let padded := md5Pad (strBytes s)
  let r := md5ChunksAux (padded.length + 1) padded md5Init
  leBytes4 r.1 ++ leBytes4 r.2.1 ++ leBytes4 r.2.2.1 ++ leBytes4 r.2.2.2

/-- Python `int(hashlib.md5(s.encode()).hexdigest(), 16)`: the digest bytes
read as one big-endian number. -/
def md5Int (s : String) : Nat :=
  (md5Digest s).foldl (fun acc byte => acc * 256 + byte) 0

set_option maxRecDepth 100000 in
example : md5Int "" = 281949768489412648962353822266799178366 := by decide

set_option maxRecDepth 100000 in
example : md5Int "abc" = 191415658344158766168031473277922803570 := by decide

end SemanticTalk

namespace SemanticTalk

/-- The fixed pool of 20 sample author names (src/scraper.py 1049–1055). -/
def sampleAuthors : List String :=
  ["Sarah Johnson", "Michael Chen", "Emily Rodriguez", "David Thompson",
   "Jennifer Martinez", "Robert Williams", "Lisa Anderson", "James Taylor",
   "Maria Garcia", "Christopher Brown", "Amanda Davis", "Daniel Wilson",
   "Jessica Lee", "Matthew Moore", "Ashley Jackson", "Ryan White",
   "Nicole Harris", "Kevin Martin", "Rachel Clark", "Brian Lewis"]

/-- `sample_authors[int(md5(title).hexdigest(), 16) % len(sample_authors)]`
(src/scraper.py lines 1057–1060). -/
def sampleAuthorFor (title : String) : String :=
  sampleAuthors.getD (md5Int title % sampleAuthors.length) ""

/-- The final fallback of the author chain (lines 1045–1061): `extracted`
is the combined result of every earlier strategy (`None`/`""` = all
failed); `if not author_name:` then the sample author is fabricated. -/
def chooseFallbackAuthor (extracted : Option String) (title : String) : String :=
  match extracted with
  | some a => if a = "" then sampleAuthorFor title else a
  | none => sampleAuthorFor title

theorem getD_mem_of_lt {α : Type} (l : List α) (n : Nat) (d : α) (h : n < l.length) :
    l.getD n d ∈ l := by
  induction l generalizing n with
  | nil => simp at h
  | cons a rest ih =>
    cases n with
    | zero => simp
    | succ m =>
      rw [List.getD_cons_succ]
      exact List.mem_cons_of_mem _ (ih m (by simpa using h))

/-- C10: when every author-extraction strategy fails, the fabricated author
is `sampleAuthors[md5Int(title) % 20]` — a deterministic function of the
title alone, drawn from the fixed 20-name pool — so two books with equal
title strings always receive the same fabricated author. -/
theorem sample_author_deterministic (t1 t2 : String) (e1 e2 : Option String)
    (h1 : e1 = none ∨ e1 = some "") (h2 : e2 = none ∨ e2 = some "")
    (heq : t1 = t2) :
    chooseFallbackAuthor e1 t1 = sampleAuthors.getD (md5Int t1 % 20) "" ∧
    chooseFallbackAuthor e1 t1 ∈ sampleAuthors ∧
    chooseFallbackAuthor e1 t1 = chooseFallbackAuthor e2 t2 := by
  have hlen : sampleAuthors.length = 20 := by decide
  have eval1 : chooseFallbackAuthor e1 t1 = sampleAuthorFor t1 := by
    rcases h1 with rfl | rfl <;> simp [chooseFallbackAuthor]
  have eval2 : chooseFallbackAuthor e2 t2 = sampleAuthorFor t2 := by
    rcases h2 with rfl | rfl <;> simp [chooseFallbackAuthor]
  refine ⟨?_, ?_, ?_⟩
  · rw [eval1, sampleAuthorFor, hlen]
  · rw [eval1, sampleAuthorFor]
    exact getD_mem_of_lt _ _ _ (Nat.mod_lt _ (by decide))
  · rw [eval1, eval2, heq]

set_option maxRecDepth 100000 in
/-- C10 witness: for the title `"A Light in the Attic"` (all strategies
failed, whether reported as `None` or `""`), the fabricated author is
`"Daniel Wilson"` (`md5 % 20 = 11`), identically for both failure shapes. -/
theorem sample_author_deterministic_witness :
    ((none : Option String) = none ∨ (none : Option String) = some "") ∧
    chooseFallbackAuthor none "A Light in the Attic" =
      chooseFallbackAuthor (some "") "A Light in the Attic" ∧
    chooseFallbackAuthor none "A Light in the Attic" = "Daniel Wilson" := by
  have h := sample_author_deterministic "A Light in the Attic" "A Light in the Attic"
    none (some "") (Or.inl rfl) (Or.inr rfl) rfl
  refine ⟨Or.inl rfl, h.2.2, ?_⟩
  rw [h.1]
  decide

end SemanticTalk

namespace SemanticTalk

/-! ## The entity store (`models.py` records, `WebScraper.__init__` state)

`scrp_dt` / `rev_dt` (`datetime.now()`) are omitted: wall-clock values no
claim mentions.  `uuid.uuid4()` is modelled by the `uuidCtr` supply: each
call takes the next value `freshUuid k`; the only fact used about real
uuid4 values is that they are hex-and-dash strings, never of the
`{parent}_KIND_{index}` shape (they contain no underscore). -/

/-- `models.Product` (table `INV_MAST`). -/
structure Product where
  inv_id : String
  inv_nm : String
  unit_prc : ℚ
  cat_cd : String
  desc_txt : String
  lnk_id : Option String
  deriving Repr, DecidableEq

/-- `models.Book` (table `BK_CATALOG`). -/
structure Book where
  bk_id : String
  bk_ttl : String
  unit_prc : ℚ
  auth_cd : String
  avail_sts : String
  rtg_val : Nat
  desc_txt : String
  lnk_id : Option String
  deriving Repr, DecidableEq

/-- `models.Film` (table `MEDIA_MAST`). -/
structure Film where
  media_id : String
  media_ttl : String
  yr_val : Int
  awd_cat_cd : String
  dir_cd : String
  deriving Repr, DecidableEq

/-- `models.BookCategoryBridge` (table `BK_CAT_XREF`). -/
structure BookCategoryBridge where
  bk_id : String
  bk_cat_cd : String
  deriving Repr, DecidableEq

/-- `models.FilmActorBridge` (table `MEDIA_PERF_XREF`). -/
structure FilmActorBridge where
  media_id : String
  perf_cd : String
  role_nm : Option String
  deriving Repr, DecidableEq

/-- `models.FilmAwardBridge` (table `MEDIA_AWD_XREF`). -/
structure FilmAwardBridge where
  media_id : String
  awd_cat_cd : String
  awd_yr : Int
  deriving Repr, DecidableEq

/-- `models.ProductVariant` (table `INV_VAR`). -/
structure ProductVariant where
  var_id : String
  inv_id : String
  sz_cd : String
  flv_cd : String
  prc_mod : ℚ
  deriving Repr, DecidableEq

/-- `models.ProductReview` (table `INV_REV`). -/
structure ProductReview where
  rev_id : String
  inv_id : String
  rtg_val : Nat
  rev_txt : String
  rev_nm : Option String
  deriving Repr, DecidableEq

/-- `models.SimilarProduct` (table `INV_SIM`). -/
structure SimilarProduct where
  sim_id : String
  inv_id : String
  sim_inv_id : String
  sim_score : Option ℚ
  deriving Repr, DecidableEq

/-- The run-scoped entity store (`WebScraper.__init__`, lines 67–84), plus
the modelled uuid4 supply counter. -/
structure Store where
  products : List Product
  product_categories : DimMap
  product_variants : List ProductVariant
  product_reviews : List ProductReview
  similar_products : List SimilarProduct
  books : List Book
  authors : DimMap
  book_categories : DimMap
  book_category_bridges : List BookCategoryBridge
  films : List Film
  directors : DimMap
  actors : DimMap
  award_categories : DimMap
  film_actor_bridges : List FilmActorBridge
  film_award_bridges : List FilmAwardBridge
  uuidCtr : Nat
  deriving Repr, DecidableEq

/-- The store at the start of a run. -/
def emptyStore : Store :=
  ⟨[], [], [], [], [], [], [], [], [], [], [], [], [], [], [], 0⟩

/-- The `k`-th value of the modelled uuid4 supply. -/
def freshUuid (k : Nat) : String := "uuid4-" ++ natDecimal k

/-- One `uuid.uuid4()` call. -/
def takeUuid (s : Store) : String × Store :=
  (freshUuid s.uuidCtr, { s with uuidCtr := s.uuidCtr + 1 })

/-! ## C8 — the Detail Enricher's sub-records

`_scrape_product_detail` (src/scraper.py lines 741–776), embedded at the
boundary of the parsed detail `data` (LLM extraction / CSS fallback results
are external fetches).  `if not data: return` is the all-fields-absent case
(`detailIsEmpty`). -/

/-- One entry of `data["variants"]`. -/
structure VariantData where
  size : String
  flavor : String
  price_modifier : ℚ
  deriving Repr, DecidableEq

/-- One entry of `data["reviews"]`. -/
structure ReviewData where
  rating : Nat
  text : String
  reviewer : Option String
  deriving Repr, DecidableEq

/-- One entry of `data["similar_products"]` (`product_id` key may be absent). -/
structure SimilarData where
  product_id : Option String
  deriving Repr, DecidableEq

/-- The parsed detail-page `data` dict. -/
structure DetailData where
  description : String
  variants : List VariantData
  reviews : List ReviewData
  similar_products : List SimilarData
  deriving Repr, DecidableEq

/-- The empty-dict (`if not data`) guard. -/
def detailIsEmpty (d : DetailData) : Bool :=
  d.description = "" ∧ d.variants = [] ∧ d.reviews = [] ∧ d.similar_products = []

/-- Set the description of the first product whose `inv_id` matches
(lines 742–745: iterate, assign, `break`). -/
def updateDescFirst (ps : List Product) (inv_id desc : String) : List Product :=
  match ps with
  | [] => []
  | p :: rest =>
      if p.inv_id = inv_id then { p with desc_txt := desc } :: rest
      else p :: updateDescFirst rest inv_id desc

/-- The similar-product loop (lines 769–776), unrolled: each iteration
evaluates `similar.get("product_id", str(uuid.uuid4()))` (the default is
evaluated eagerly, consuming one supply value) and then `str(uuid.uuid4())`
for `sim_id`. -/
def mkSimilars (inv_id : String) (ctr : Nat) : List SimilarData → List SimilarProduct
  | [] => []
  | sim :: rest =>
      ⟨freshUuid (ctr + 1), inv_id,
        (match sim.product_id with
          | some pid => pid
          | none => freshUuid ctr), none⟩ :: mkSimilars inv_id (ctr + 2) rest

/-- `_scrape_product_detail`'s state updates, given the parsed `data`. -/
def scrapeProductDetail (inv_id : String) (data : DetailData) (s : Store) : Store :=
  if detailIsEmpty data then s
  else
    let s0 := { s with products := updateDescFirst s.products inv_id data.description }
    let s1 := { s0 with product_variants := s0.product_variants ++
        data.variants.enum.map (fun (iv : Nat × VariantData) =>
          (⟨inv_id ++ "_VAR_" ++ natDecimal iv.1, inv_id, iv.2.size, iv.2.flavor,
            iv.2.price_modifier⟩ : ProductVariant)) }
    let s2 := { s1 with product_reviews := s1.product_reviews ++
        data.reviews.enum.map (fun (ir : Nat × ReviewData) =>
          (⟨inv_id ++ "_REV_" ++ natDecimal ir.1, inv_id, ir.2.rating, ir.2.text,
            ir.2.reviewer⟩ : ProductReview)) }
    { s2 with
      similar_products :=
        s2.similar_products ++ mkSimilars inv_id s2.uuidCtr data.similar_products
      uuidCtr := s2.uuidCtr + 2 * data.similar_products.length }

end SemanticTalk

namespace SemanticTalk

/-- C8 counterexample: for the parent fact `"p1"` and a detail page with one
similar product, the emitted `SimilarProduct` row's identifier is the next
uuid4 value (line 772, `sim_id=str(uuid.uuid4())`), not `"p1_SIM_0"` as the
claim requires.  (A real uuid4 is a hex-and-dash string, which never has the
`{parent}_SIM_{index}` shape.) -/
theorem detail_similar_id_counterexample :
    ((scrapeProductDetail "p1" (DetailData.mk "d" [] [] [SimilarData.mk (some "p9")])
        emptyStore).similar_products.map SimilarProduct.sim_id) = ["uuid4-1"] ∧
    ("uuid4-1" : String) ≠ "p1_SIM_0" := by
  decide

theorem mkSimilars_sim_ids (inv_id : String) (ctr : Nat) (sims : List SimilarData) :
    (mkSimilars inv_id ctr sims).map SimilarProduct.sim_id =
      (List.range sims.length).map (fun k => freshUuid (ctr + 2 * k + 1)) := by
  induction sims generalizing ctr with
  | nil => rfl
  | cons a rest ih =>
    rw [mkSimilars, List.map_cons, List.length_cons, List.range_succ_eq_map,
      List.map_cons, List.map_map, ih (ctr + 2)]
    refine congrArg₂ _ (by norm_num) ?_
    refine List.map_congr_left ?_
    intro k _
    simp only [Function.comp_apply]
    refine congrArg freshUuid ?_
    omega

theorem mkSimilars_inv_id (inv_id : String) (ctr : Nat) (sims : List SimilarData) :
    ∀ sp ∈ mkSimilars inv_id ctr sims, sp.inv_id = inv_id := by
  induction sims generalizing ctr with
  | nil => intro sp h; simp [mkSimilars] at h
  | cons a rest ih =>
    intro sp h
    rw [mkSimilars] at h
    rcases List.mem_cons.mp h with rfl | h2
    · rfl
    · exact ih (ctr + 2) sp h2

/-- C8 (amended): for every accepted product, variant sub-records receive
`{parent_id}_VAR_{index}` and review sub-records `{parent_id}_REV_{index}`,
each scoped to the parent's `inv_id`; similar-product sub-records carry the
parent in `inv_id` but receive freshly generated uuid4 identifiers, not
`{parent_id}_SIM_{index}`. -/
theorem detail_subrecord_ids (inv_id : String) (data : DetailData) (s : Store)
    (hne : ¬ detailIsEmpty data = true) :
    ((scrapeProductDetail inv_id data s).product_variants.drop
        s.product_variants.length).map ProductVariant.var_id =
      (List.range data.variants.length).map
        (fun i => inv_id ++ "_VAR_" ++ natDecimal i) ∧
    (∀ v ∈ (scrapeProductDetail inv_id data s).product_variants.drop
        s.product_variants.length, v.inv_id = inv_id) ∧
    ((scrapeProductDetail inv_id data s).product_reviews.drop
        s.product_reviews.length).map ProductReview.rev_id =
      (List.range data.reviews.length).map
        (fun i => inv_id ++ "_REV_" ++ natDecimal i) ∧
    (∀ r ∈ (scrapeProductDetail inv_id data s).product_reviews.drop
        s.product_reviews.length, r.inv_id = inv_id) ∧
    ((scrapeProductDetail inv_id data s).similar_products.drop
        s.similar_products.length).map SimilarProduct.sim_id =
      (List.range data.similar_products.length).map
        (fun k => freshUuid (s.uuidCtr + 2 * k + 1)) ∧
    (∀ sp ∈ (scrapeProductDetail inv_id data s).similar_products.drop
        s.similar_products.length, sp.inv_id = inv_id) := by
  rw [scrapeProductDetail, if_neg hne]
  simp only [List.drop_left]
  refine ⟨?_, ?_, ?_, ?_, ?_, ?_⟩
  · rw [List.map_map, ← List.enum_map_fst data.variants, List.map_map]
    rfl
  · intro v hv
    obtain ⟨iv, _, rfl⟩ := List.mem_map.mp hv
    rfl
  · rw [List.map_map, ← List.enum_map_fst data.reviews, List.map_map]
    rfl
  · intro r hr
    obtain ⟨ir, _, rfl⟩ := List.mem_map.mp hr
    rfl
  · exact mkSimilars_sim_ids inv_id s.uuidCtr data.similar_products
  · exact mkSimilars_inv_id inv_id s.uuidCtr data.similar_products

/-- C8 witness: a detail page with one variant, one review and one similar
product under parent `"p1"`: the variant and review ids are parent-scoped,
the similar-product id is the uuid supply's value. -/
theorem detail_subrecord_ids_witness :
    ¬ detailIsEmpty (DetailData.mk "great" [VariantData.mk "small" "mint" 0]
        [ReviewData.mk 5 "good" (some "Ann")] [SimilarData.mk (some "p9")]) = true ∧
    ((scrapeProductDetail "p1" (DetailData.mk "great" [VariantData.mk "small" "mint" 0]
        [ReviewData.mk 5 "good" (some "Ann")] [SimilarData.mk (some "p9")])
        emptyStore).product_variants.map ProductVariant.var_id = ["p1_VAR_0"]) ∧
    ((scrapeProductDetail "p1" (DetailData.mk "great" [VariantData.mk "small" "mint" 0]
        [ReviewData.mk 5 "good" (some "Ann")] [SimilarData.mk (some "p9")])
        emptyStore).product_reviews.map ProductReview.rev_id = ["p1_REV_0"]) ∧
    ((scrapeProductDetail "p1" (DetailData.mk "great" [VariantData.mk "small" "mint" 0]
        [ReviewData.mk 5 "good" (some "Ann")] [SimilarData.mk (some "p9")])
        emptyStore).similar_products.map SimilarProduct.sim_id = ["uuid4-1"]) := by
  have h := detail_subrecord_ids "p1"
    (DetailData.mk "great" [VariantData.mk "small" "mint" 0]
      [ReviewData.mk 5 "good" (some "Ann")] [SimilarData.mk (some "p9")])
    emptyStore (by decide)
  refine ⟨by decide, ?_, ?_, ?_⟩
  · simpa using h.1
  · simpa using h.2.2.1
  · simpa using h.2.2.2.2.1

end SemanticTalk

namespace SemanticTalk

/-! ## C7 — book processing and `BookCategoryBridge` emission

src/scraper.py lines 893–1167: per accepted item, a uuid `book_id`, the
author fallback chain, author normalization, the `Book` record, then one
`BookCategoryBridge` per category (after the `["Fiction"]` default). -/

/-- `item.get("title", "")`. -/
def bookTitle (item : BookItem) : String :=
  match item.title with
  | some t => t
  | none => ""

/-- The author fallback chain: the merged CSS/LLM author if truthy, else
the detail-page strategies' result (`detailAuthor`) when the detail page
was fetched, else the md5 sample author (lines 1045–1061) inside the detail
branch, else `"Not Specified"` (lines 1098–1101). -/
def resolvedAuthorName (item : BookItem) : String :=
  let merged := match item.author with
    | some a => a
    | none => ""
  if merged ≠ "" then merged
  else if item.detailFetched then
    let strat := match item.detailAuthor with
      | some a => a
      | none => ""
    if strat ≠ "" then strat
    else sampleAuthorFor (bookTitle item)
  else "Not Specified"

/-- `if not categories or len(categories) == 0: categories = ["Fiction"]`
(lines 1103–1106). -/
def finalCategories (item : BookItem) : List String :=
  if item.categories = [] then ["Fiction"] else item.categories

/-- The per-category normalization-and-bridge loop (lines 1154–1167). -/
def addBookCategories (bid : String) (cats : List String) (s : Store) : Store :=
  cats.foldl (fun s cat =>
    { s with
      book_categories := (resolve "BK_CAT" s.book_categories cat).2
      book_category_bridges := s.book_category_bridges ++
        [BookCategoryBridge.mk bid (resolve "BK_CAT" s.book_categories cat).1] }) s

/-- Processing of one accepted book item (lines 893–1167). -/
def processBookItem (s : Store) (item : BookItem) : Store :=
  let u1 := takeUuid s
  let s1 := u1.2
  let r := resolve "AUTH" s1.authors (resolvedAuthorName item)
  let s2 := { s1 with authors := r.2 }
  let u2 := takeUuid s2
  let book : Book := ⟨u1.1, bookTitle item, item.price, r.1, item.availability,
    item.rating, item.description, some u2.1⟩
  let s3 := { u2.2 with books := u2.2.books ++ [book] }
  addBookCategories u1.1 (finalCategories item) s3

/-- The accepted-item loop of `scrape_books`. -/
def processBooks (s : Store) (items : List BookItem) : Store :=
  items.foldl processBookItem s

theorem addBookCategories_spec (bid : String) (cats : List String) (s : Store) :
    (addBookCategories bid cats s).books = s.books ∧
    (addBookCategories bid cats s).products = s.products ∧
    (addBookCategories bid cats s).films = s.films ∧
    (addBookCategories bid cats s).book_category_bridges.length =
      s.book_category_bridges.length + cats.length := by
  induction cats generalizing s with
  | nil => exact ⟨rfl, rfl, rfl, rfl⟩
  | cons c rest ih =>
    have step : addBookCategories bid (c :: rest) s = addBookCategories bid rest
        { s with
          book_categories := (resolve "BK_CAT" s.book_categories c).2
          book_category_bridges := s.book_category_bridges ++
            [BookCategoryBridge.mk bid (resolve "BK_CAT" s.book_categories c).1] } := rfl
    obtain ⟨i1, i2, i3, i4⟩ := ih
      { s with
        book_categories := (resolve "BK_CAT" s.book_categories c).2
        book_category_bridges := s.book_category_bridges ++
          [BookCategoryBridge.mk bid (resolve "BK_CAT" s.book_categories c).1] }
    rw [step]
    refine ⟨i1, i2, i3, ?_⟩
    rw [i4]
    simp only [List.length_append, List.length_cons, List.length_nil]
    omega

theorem processBookItem_spec (s : Store) (item : BookItem) :
    (processBookItem s item).books.length = s.books.length + 1 ∧
    (processBookItem s item).products = s.products ∧
    (processBookItem s item).films = s.films ∧
    (processBookItem s item).book_category_bridges.length =
      s.book_category_bridges.length + (finalCategories item).length := by
  have keyEq : processBookItem s item = addBookCategories (freshUuid s.uuidCtr)
      (finalCategories item)
      { s with
        authors := (resolve "AUTH" s.authors (resolvedAuthorName item)).2
        uuidCtr := s.uuidCtr + 1 + 1
        books := s.books ++
          [⟨freshUuid s.uuidCtr, bookTitle item, item.price,
            (resolve "AUTH" s.authors (resolvedAuthorName item)).1, item.availability,
            item.rating, item.description, some (freshUuid (s.uuidCtr + 1))⟩] } := rfl
  obtain ⟨h1, h2, h3, h4⟩ := addBookCategories_spec (freshUuid s.uuidCtr)
    (finalCategories item)
    { s with
      authors := (resolve "AUTH" s.authors (resolvedAuthorName item)).2
      uuidCtr := s.uuidCtr + 1 + 1
      books := s.books ++
        [⟨freshUuid s.uuidCtr, bookTitle item, item.price,
          (resolve "AUTH" s.authors (resolvedAuthorName item)).1, item.availability,
          item.rating, item.description, some (freshUuid (s.uuidCtr + 1))⟩] }
  rw [keyEq]
  refine ⟨?_, ?_, ?_, ?_⟩
  · rw [h1]
    simp
  · exact h2
  · exact h3
  · exact h4

theorem processBooks_spec (items : List BookItem) (s : Store) :
    (processBooks s items).books.length = s.books.length + items.length ∧
    (processBooks s items).products = s.products ∧
    (processBooks s items).films = s.films ∧
    (processBooks s items).book_category_bridges.length =
      s.book_category_bridges.length +
        (items.map (fun i => (finalCategories i).length)).sum := by
  induction items generalizing s with
  | nil => exact ⟨by simp [processBooks], rfl, rfl, by simp [processBooks]⟩
  | cons a rest ih =>
    have step : processBooks s (a :: rest) = processBooks (processBookItem s a) rest := rfl
    obtain ⟨g1, g2, g3, g4⟩ := processBookItem_spec s a
    obtain ⟨i1, i2, i3, i4⟩ := ih (processBookItem s a)
    refine ⟨?_, ?_, ?_, ?_⟩ <;> rw [step]
    · rw [i1, g1]
      simp only [List.length_cons]
      omega
    · rw [i2, g2]
    · rw [i3, g3]
    · rw [i4, g4]
      simp only [List.map_cons, List.sum_cons]
      omega

/-- C7: at the end of a run the number of `BookCategoryBridge` rows equals
the sum, over all accepted books, of the number of categories associated
with that book (one bridge row per `(book, category)` pairing), the number
of accepted books being the number of `Book` rows. -/
theorem bridge_count_law (items : List BookItem) :
    (processBooks emptyStore items).book_category_bridges.length =
      (items.map (fun i => (finalCategories i).length)).sum ∧
    (processBooks emptyStore items).books.length = items.length := by
  obtain ⟨h1, _, _, h4⟩ := processBooks_spec items emptyStore
  exact ⟨by simpa [emptyStore] using h4, by simpa [emptyStore] using h1⟩

example :
    (processBooks emptyStore
      [BookItem.mk (some "T1") (some "A") none false ["Poetry", "Classics"] 10 "In stock" 3 "",
       BookItem.mk (some "T2") none none false [] 12 "In stock" 4 ""]
    ).book_category_bridges.length = 3 := by
  decide

end SemanticTalk

namespace SemanticTalk

/-! ## C9 — film processing and the `FilmAwardBridge` invariant

src/scraper.py lines 1613–1689: per accepted film item, a uuid `media_id`,
the director fallback, award-name derivation, director/award normalization,
the `Film` record, actor bridges, and exactly one `FilmAwardBridge`. -/

/-- One film item as parsed from the AJAX JSON / LLM extraction, after the
director/actor enrichment merge.  `director` summarizes
`item.get("director") or item.get("director_name")`; `year` is
`item.get("year")` with the loop year as default. -/
structure FilmItem where
  title : String
  year : Option Int
  director : Option String
  actors : List String
  best_picture : Bool
  awards : Nat
  deriving Repr, DecidableEq

/-- `WebScraper._is_valid_film` (lines 178–189). -/
def isValidFilm (item : FilmItem) : Bool :=
  let t := pyStrip item.title
  if t = "" ∨ pyLower t = "unknown" then false else true

/-- `int(item.get("year", year))`. -/
def filmYear (item : FilmItem) (loopYear : Int) : Int :=
  match item.year with
  | some y => y
  | none => loopYear

/-- Award-name derivation (lines 1621–1630). -/
def awardNameFor (item : FilmItem) : String :=
  if item.best_picture then "Best Picture"
  else if 0 < item.awards then "Academy Award Winner"
  else "Best Picture"

/-- Director fallback (lines 1619, 1634–1636). -/
def directorNameFor (item : FilmItem) : String :=
  let d0 := match item.director with
    | some d => if d = "" then "Not Specified" else d
    | none => "Not Specified"
  if pyLower d0 = "unknown" ∨ pyLower d0 = "unknown director" then "Not Specified" else d0

/-- The actor normalization-and-bridge loop (lines 1668–1682). -/
def addFilmActors (media_id : String) (names : List String) (s : Store) : Store :=
  names.foldl (fun s nm =>
    { s with
      actors := (resolve "PERF" s.actors nm).2
      film_actor_bridges := s.film_actor_bridges ++
        [FilmActorBridge.mk media_id (resolve "PERF" s.actors nm).1 none] }) s

/-- Processing of one accepted film item (lines 1613–1689). -/
def processFilmItem (loopYear : Int) (s : Store) (item : FilmItem) : Store :=
  let u := takeUuid s
  let s1 := u.2
  let rdir := resolve "DIR" s1.directors (directorNameFor item)
  let s2 := { s1 with directors := rdir.2 }
  let rawd := resolve "AWD" s2.award_categories (awardNameFor item)
  let s3 := { s2 with award_categories := rawd.2 }
  let film : Film := ⟨u.1, item.title, filmYear item loopYear, rawd.1, rdir.1⟩
  let s4 := { s3 with films := s3.films ++ [film] }
  let s5 := addFilmActors u.1 item.actors s4
  { s5 with film_award_bridges := s5.film_award_bridges ++
      [FilmAwardBridge.mk u.1 rawd.1 (filmYear item loopYear)] }

/-- The year loop of `scrape_films`: one bucket of accepted items per year. -/
def processFilmYears (s : Store) (buckets : List (Int × List FilmItem)) : Store :=
  buckets.foldl (fun s yb => yb.2.foldl (processFilmItem yb.1) s) s

/-- The pairing C9 asserts between a film row and its award bridge row. -/
def filmBridgeRel (f : Film) (b : FilmAwardBridge) : Prop :=
  b.media_id = f.media_id ∧ b.awd_cat_cd = f.awd_cat_cd ∧ b.awd_yr = f.yr_val

theorem forall₂_append_single {α β : Type} {R : α → β → Prop} {l₁ : List α}
    {l₂ : List β} (h : List.Forall₂ R l₁ l₂) {a : α} {b : β} (hab : R a b) :
    List.Forall₂ R (l₁ ++ [a]) (l₂ ++ [b]) := by
  induction h with
  | nil => simpa using List.Forall₂.cons hab List.Forall₂.nil
  | cons hr _ ih => exact List.Forall₂.cons hr ih

theorem addFilmActors_spec (media_id : String) (names : List String) (s : Store) :
    (addFilmActors media_id names s).films = s.films ∧
    (addFilmActors media_id names s).film_award_bridges = s.film_award_bridges ∧
    (addFilmActors media_id names s).products = s.products ∧
    (addFilmActors media_id names s).books = s.books := by
  induction names generalizing s with
  | nil => exact ⟨rfl, rfl, rfl, rfl⟩
  | cons nm rest ih =>
    have step : addFilmActors media_id (nm :: rest) s = addFilmActors media_id rest
        { s with
          actors := (resolve "PERF" s.actors nm).2
          film_actor_bridges := s.film_actor_bridges ++
            [FilmActorBridge.mk media_id (resolve "PERF" s.actors nm).1 none] } := rfl
    rw [step]
    exact ih _

theorem processFilmItem_spec (loopYear : Int) (s : Store) (item : FilmItem) :
    (∃ f b, (processFilmItem loopYear s item).films = s.films ++ [f] ∧
      (processFilmItem loopYear s item).film_award_bridges =
        s.film_award_bridges ++ [b] ∧ filmBridgeRel f b) ∧
    (processFilmItem loopYear s item).products = s.products ∧
    (processFilmItem loopYear s item).books = s.books := by
  have keyEq : processFilmItem loopYear s item =
      { addFilmActors (freshUuid s.uuidCtr) item.actors
          { s with
            uuidCtr := s.uuidCtr + 1
            directors := (resolve "DIR" s.directors (directorNameFor item)).2
            award_categories :=
              (resolve "AWD" s.award_categories (awardNameFor item)).2
            films := s.films ++
              [⟨freshUuid s.uuidCtr, item.title, filmYear item loopYear,
                (resolve "AWD" s.award_categories (awardNameFor item)).1,
                (resolve "DIR" s.directors (directorNameFor item)).1⟩] } with
        film_award_bridges :=
          (addFilmActors (freshUuid s.uuidCtr) item.actors
            { s with
              uuidCtr := s.uuidCtr + 1
              directors := (resolve "DIR" s.directors (directorNameFor item)).2
              award_categories :=
                (resolve "AWD" s.award_categories (awardNameFor item)).2
              films := s.films ++
                [⟨freshUuid s.uuidCtr, item.title, filmYear item loopYear,
                  (resolve "AWD" s.award_categories (awardNameFor item)).1,
                  (resolve "DIR" s.directors (directorNameFor item)).1⟩] }).film_award_bridges
            ++ [FilmAwardBridge.mk (freshUuid s.uuidCtr)
                (resolve "AWD" s.award_categories (awardNameFor item)).1
                (filmYear item loopYear)] } := rfl
  obtain ⟨a1, a2, a3, a4⟩ := addFilmActors_spec (freshUuid s.uuidCtr) item.actors
    { s with
      uuidCtr := s.uuidCtr + 1
      directors := (resolve "DIR" s.directors (directorNameFor item)).2
      award_categories := (resolve "AWD" s.award_categories (awardNameFor item)).2
      films := s.films ++
        [⟨freshUuid s.uuidCtr, item.title, filmYear item loopYear,
          (resolve "AWD" s.award_categories (awardNameFor item)).1,
          (resolve "DIR" s.directors (directorNameFor item)).1⟩] }
  rw [keyEq]
  refine ⟨⟨⟨freshUuid s.uuidCtr, item.title, filmYear item loopYear,
      (resolve "AWD" s.award_categories (awardNameFor item)).1,
      (resolve "DIR" s.directors (directorNameFor item)).1⟩,
    FilmAwardBridge.mk (freshUuid s.uuidCtr)
      (resolve "AWD" s.award_categories (awardNameFor item)).1
      (filmYear item loopYear), ?_, ?_, rfl, rfl, rfl⟩, a3, a4⟩
  · exact a1
  · rw [show ({ addFilmActors (freshUuid s.uuidCtr) item.actors _ with
        film_award_bridges := _ } : Store).film_award_bridges = _ from rfl, a2]

theorem processFilmItems_invariant (loopYear : Int) (items : List FilmItem) (s : Store)
    (h : List.Forall₂ filmBridgeRel s.films s.film_award_bridges) :
    List.Forall₂ filmBridgeRel (items.foldl (processFilmItem loopYear) s).films
      (items.foldl (processFilmItem loopYear) s).film_award_bridges ∧
    (items.foldl (processFilmItem loopYear) s).products = s.products ∧
    (items.foldl (processFilmItem loopYear) s).books = s.books := by
  induction items generalizing s with
  | nil => exact ⟨h, rfl, rfl⟩
  | cons a rest ih =>
    obtain ⟨⟨f, b, hf, hb, hrel⟩, hp, hbk⟩ := processFilmItem_spec loopYear s a
    have hstep : List.Forall₂ filmBridgeRel (processFilmItem loopYear s a).films
        (processFilmItem loopYear s a).film_award_bridges := by
      rw [hf, hb]
      exact forall₂_append_single h hrel
    obtain ⟨i1, i2, i3⟩ := ih (processFilmItem loopYear s a) hstep
    rw [List.foldl_cons]
    exact ⟨i1, by rw [i2, hp], by rw [i3, hbk]⟩

theorem processFilmYears_invariant (buckets : List (Int × List FilmItem)) (s : Store)
    (h : List.Forall₂ filmBridgeRel s.films s.film_award_bridges) :
    List.Forall₂ filmBridgeRel (processFilmYears s buckets).films
      (processFilmYears s buckets).film_award_bridges ∧
    (processFilmYears s buckets).products = s.products ∧
    (processFilmYears s buckets).books = s.books := by
  induction buckets generalizing s with
  | nil => exact ⟨h, rfl, rfl⟩
  | cons yb rest ih =>
    have step : processFilmYears s (yb :: rest) =
        processFilmYears (yb.2.foldl (processFilmItem yb.1) s) rest := rfl
    obtain ⟨g1, g2, g3⟩ := processFilmItems_invariant yb.1 yb.2 s h
    obtain ⟨i1, i2, i3⟩ := ih (yb.2.foldl (processFilmItem yb.1) s) g1
    rw [step]
    exact ⟨i1, by rw [i2, g2], by rw [i3, g3]⟩

/-- C9: in a run from the empty store, the film rows and the
`FilmAwardBridge` rows are in one-to-one order-preserving correspondence —
each accepted film appends exactly one bridge whose `media_id` is the film's
generated id, whose `awd_cat_cd` is the award code stored on the film, and
whose `awd_yr` is the film's year — so the two tables have equal row counts. -/
theorem film_award_bridge_invariant (buckets : List (Int × List FilmItem)) :
    List.Forall₂ filmBridgeRel (processFilmYears emptyStore buckets).films
      (processFilmYears emptyStore buckets).film_award_bridges ∧
    (processFilmYears emptyStore buckets).film_award_bridges.length =
      (processFilmYears emptyStore buckets).films.length := by
  obtain ⟨h1, _, _⟩ := processFilmYears_invariant buckets emptyStore List.Forall₂.nil
  exact ⟨h1, h1.length_eq.symm⟩

example :
    ((processFilmYears emptyStore
        [(2010, [FilmItem.mk "Inception" (some 2010) (some "Christopher Nolan")
          ["Leonardo DiCaprio"] false 4])]).films.length = 1) ∧
    ((processFilmYears emptyStore
        [(2010, [FilmItem.mk "Inception" (some 2010) (some "Christopher Nolan")
          ["Leonardo DiCaprio"] false 4])]).film_award_bridges.map
        FilmAwardBridge.awd_yr = [(2010 : Int)]) := by
  decide

end SemanticTalk

namespace SemanticTalk

/-! ## C3 — the Cross-Source Orchestrator and Table Assembler

`scrape_products` / `scrape_books` / `scrape_films` loop skeletons
(extract → validate → process accepted → whole-source Gate), `run_all`
(lines 1781–1790, `asyncio.gather(..., return_exceptions=True)`) and
`to_dataframes` (lines 1704–1763).  The three pipelines write disjoint
store fields, so the cooperatively interleaved execution yields the same
final store as this sequential composition; a pipeline's raised Gate error
leaves its own partial mutations in place (Python mutates `self`) and is
captured by `gather`, never propagated. -/

/-- Category inference for products without a category (lines 547–558). -/
def inferProductCategory (item : ProductItem) : String :=
  let nl := pyLower item.name
  if ["chocolate", "candy", "food", "snack"].any (fun w => strHasSub nl w) then
    "Food & Beverages"
  else if ["potion", "energy", "drink"].any (fun w => strHasSub nl w) then
    "Beverages"
  else if ["game", "toy", "collectible"].any (fun w => strHasSub nl w) then
    "Entertainment"
  else "General"

/-- `category_name = item.get("category")`, inferred when falsy. -/
def productCategoryName (item : ProductItem) : String :=
  match item.category with
  | some c => if c = "" then inferProductCategory item else c
  | none => inferProductCategory item

/-- Processing of one accepted product item (lines 543–583); the
`item.get("product_id", str(uuid.uuid4()))` default is evaluated eagerly,
consuming one supply value; the per-product detail fetch consumes external
page data and is modelled separately (`scrapeProductDetail`). -/
def processProductItem (s : Store) (item : ProductItem) : Store :=
  let u0 := takeUuid s
  let product_id := match item.product_id with
    | some pid => pid
    | none => u0.1
  let r := resolve "CAT" u0.2.product_categories (productCategoryName item)
  let s1 := { u0.2 with product_categories := r.2 }
  let u1 := takeUuid s1
  let product : Product := ⟨product_id, item.name, item.price, r.1, "", some u1.1⟩
  { u1.2 with products := u1.2.products ++ [product] }

theorem processProductItem_spec (s : Store) (item : ProductItem) :
    (processProductItem s item).products.length = s.products.length + 1 ∧
    (processProductItem s item).books = s.books ∧
    (processProductItem s item).films = s.films := by
  refine ⟨?_, rfl, rfl⟩
  show (s.products ++ [_]).length = s.products.length + 1
  simp

theorem processProducts_spec (items : List ProductItem) (s : Store) :
    (items.foldl processProductItem s).products.length =
      s.products.length + items.length ∧
    (items.foldl processProductItem s).books = s.books ∧
    (items.foldl processProductItem s).films = s.films := by
  induction items generalizing s with
  | nil => exact ⟨by simp, rfl, rfl⟩
  | cons a rest ih =>
    obtain ⟨g1, g2, g3⟩ := processProductItem_spec s a
    obtain ⟨i1, i2, i3⟩ := ih (processProductItem s a)
    rw [List.foldl_cons]
    exact ⟨by rw [i1, g1]; simp; omega, by rw [i2, g2], by rw [i3, g3]⟩

theorem processFilmYears_frame (buckets : List (Int × List FilmItem)) (s : Store) :
    (processFilmYears s buckets).products = s.products ∧
    (processFilmYears s buckets).books = s.books := by
  induction buckets generalizing s with
  | nil => exact ⟨rfl, rfl⟩
  | cons yb rest ih =>
    have hitems : ∀ (its : List FilmItem) (s : Store),
        (its.foldl (processFilmItem yb.1) s).products = s.products ∧
        (its.foldl (processFilmItem yb.1) s).books = s.books := by
      intro its
      induction its with
      | nil => exact fun s => ⟨rfl, rfl⟩
      | cons a irest iih =>
        intro s
        obtain ⟨_, g2, g3⟩ := processFilmItem_spec yb.1 s a
        obtain ⟨j1, j2⟩ := iih (processFilmItem yb.1 s a)
        rw [List.foldl_cons]
        exact ⟨by rw [j1, g2], by rw [j2, g3]⟩
    have step : processFilmYears s (yb :: rest) =
        processFilmYears (yb.2.foldl (processFilmItem yb.1) s) rest := rfl
    obtain ⟨g1, g2⟩ := hitems yb.2 s
    obtain ⟨i1, i2⟩ := ih (yb.2.foldl (processFilmItem yb.1) s)
    rw [step]
    exact ⟨by rw [i1, g1], by rw [i2, g2]⟩

/-- `scrape_products` skeleton: validate each extracted candidate,
process the accepted ones, then run the Gate once over the whole source
(lines 522–527, 543–583, 591–592); a Gate error is recorded, not thrown
past the caller, and the mutated store is kept. -/
def scrapeProductsModel (items : List ProductItem) (s : Store) :
    Store × Option (SkipRateError ProductItem) :=
  let accepted := items.filter isValidProduct
  let s2 := accepted.foldl processProductItem s
  match checkSkipRate items.length accepted.length
      (items.filter (fun i => ! isValidProduct i)) with
  | Except.ok _ => (s2, none)
  | Except.error e => (s2, some e)

/-- `scrape_books` skeleton (lines 846–891, 893–1167, 1175–1176). -/
def scrapeBooksModel (items : List BookItem) (s : Store) :
    Store × Option (SkipRateError BookItem) :=
  let accepted := items.filter isValidBook
  let s2 := processBooks s accepted
  match checkSkipRate items.length accepted.length
      (items.filter (fun i => ! isValidBook i)) with
  | Except.ok _ => (s2, none)
  | Except.error e => (s2, some e)

/-- `scrape_films` skeleton (lines 1585–1689, 1695–1696): per-year buckets,
one Gate check over the whole source. -/
def scrapeFilmsModel (buckets : List (Int × List FilmItem)) (s : Store) :
    Store × Option (SkipRateError FilmItem) :=
  let found := (buckets.map (fun yb => yb.2.length)).sum
  let acceptedBuckets := buckets.map (fun yb => (yb.1, yb.2.filter isValidFilm))
  let accepted := (acceptedBuckets.map (fun yb => yb.2.length)).sum
  let s2 := processFilmYears s acceptedBuckets
  match checkSkipRate found accepted
      ((buckets.map (fun yb => yb.2.filter (fun i => ! isValidFilm i))).flatten) with
  | Except.ok _ => (s2, none)
  | Except.error e => (s2, some e)

/-- What `run_all` hands back: the shared store plus each task's captured
outcome (`asyncio.gather(..., return_exceptions=True)` never re-raises). -/
structure RunResult where
  store : Store
  productErr : Option (SkipRateError ProductItem)
  bookErr : Option (SkipRateError BookItem)
  filmErr : Option (SkipRateError FilmItem)

/-- `WebScraper.run_all` on a fresh scraper (lines 60–84, 1781–1790). -/
def runAll (pItems : List ProductItem) (bItems : List BookItem)
    (fBuckets : List (Int × List FilmItem)) : RunResult :=
  let rp := scrapeProductsModel pItems emptyStore
  let rb := scrapeBooksModel bItems rp.1
  let rf := scrapeFilmsModel fBuckets rb.1
  ⟨rf.1, rp.2, rb.2, rf.2⟩

/-- One table of `to_dataframes`: present iff its backing collection is
non-empty; the value is the row count (one row per record). -/
def tableEntry {α : Type} (name : String) (rows : List α) : List (String × Nat) :=
  match rows with
  | [] => []
  | _ :: _ => [(name, rows.length)]

/-- `WebScraper.to_dataframes` (lines 1704–1763), in source order. -/
def toDataframes (s : Store) : List (String × Nat) :=
  tableEntry "CAT_REF" s.product_categories ++
  tableEntry "BK_CAT_REF" s.book_categories ++
  tableEntry "AUTH_REF" s.authors ++
  tableEntry "DIR_REF" s.directors ++
  tableEntry "PERF_REF" s.actors ++
  tableEntry "AWARD_REF" s.award_categories ++
  tableEntry "INV_MAST" s.products ++
  tableEntry "BK_CATALOG" s.books ++
  tableEntry "MEDIA_MAST" s.films ++
  tableEntry "BK_CAT_XREF" s.book_category_bridges ++
  tableEntry "MEDIA_PERF_XREF" s.film_actor_bridges ++
  tableEntry "MEDIA_AWD_XREF" s.film_award_bridges ++
  tableEntry "INV_VAR" s.product_variants ++
  tableEntry "INV_REV" s.product_reviews ++
  tableEntry "INV_SIM" s.similar_products

theorem mem_tableEntry {α : Type} (name : String) (rows : List α) (h : rows ≠ []) :
    (name, rows.length) ∈ tableEntry name rows := by
  cases rows with
  | nil => exact absurd rfl h
  | cons a rest => simp [tableEntry]

theorem mem_toDataframes_products (s : Store) (h : s.products ≠ []) :
    ("INV_MAST", s.products.length) ∈ toDataframes s := by
  unfold toDataframes
  exact List.mem_append_left _ (List.mem_append_left _ (List.mem_append_left _
    (List.mem_append_left _ (List.mem_append_left _ (List.mem_append_left _
    (List.mem_append_left _ (List.mem_append_left _
    (List.mem_append_right _ (mem_tableEntry _ _ h)))))))))

theorem mem_toDataframes_books (s : Store) (h : s.books ≠ []) :
    ("BK_CATALOG", s.books.length) ∈ toDataframes s := by
  unfold toDataframes
  exact List.mem_append_left _ (List.mem_append_left _ (List.mem_append_left _
    (List.mem_append_left _ (List.mem_append_left _ (List.mem_append_left _
    (List.mem_append_left _
    (List.mem_append_right _ (mem_tableEntry _ _ h))))))))

theorem scrapeProductsModel_store (items : List ProductItem) (s : Store) :
    (scrapeProductsModel items s).1 =
      (items.filter isValidProduct).foldl processProductItem s := by
  rw [scrapeProductsModel]
  split <;> rfl

theorem scrapeBooksModel_store (items : List BookItem) (s : Store) :
    (scrapeBooksModel items s).1 = processBooks s (items.filter isValidBook) := by
  rw [scrapeBooksModel]
  split <;> rfl

theorem scrapeFilmsModel_store (buckets : List (Int × List FilmItem)) (s : Store) :
    (scrapeFilmsModel buckets s).1 =
      processFilmYears s (buckets.map (fun yb => (yb.1, yb.2.filter isValidFilm))) := by
  rw [scrapeFilmsModel]
  split <;> rfl

end SemanticTalk

namespace SemanticTalk

/-- C3: `run_all` never propagates a source pipeline's error (every outcome
is captured in the `RunResult`, by construction of the gather join); in
particular, when the films pipeline raises while the products and books
pipelines accepted items, the entity store still holds every accepted
product and book, and the table set still contains the non-empty
`INV_MAST` (product) and `BK_CATALOG` (book) tables. -/
theorem run_all_isolation (pItems : List ProductItem) (bItems : List BookItem)
    (fBuckets : List (Int × List FilmItem)) (e : SkipRateError FilmItem)
    (_hf : (runAll pItems bItems fBuckets).filmErr = some e)
    (hp : pItems.filter isValidProduct ≠ [])
    (hb : bItems.filter isValidBook ≠ []) :
    (runAll pItems bItems fBuckets).store.products.length =
      (pItems.filter isValidProduct).length ∧
    (runAll pItems bItems fBuckets).store.books.length =
      (bItems.filter isValidBook).length ∧
    ("INV_MAST", (pItems.filter isValidProduct).length) ∈
      toDataframes (runAll pItems bItems fBuckets).store ∧
    ("BK_CATALOG", (bItems.filter isValidBook).length) ∈
      toDataframes (runAll pItems bItems fBuckets).store := by
  have hstore : (runAll pItems bItems fBuckets).store =
      (scrapeFilmsModel fBuckets (scrapeBooksModel bItems
        (scrapeProductsModel pItems emptyStore).1).1).1 := rfl
  have hps : (scrapeProductsModel pItems emptyStore).1.products.length =
      (pItems.filter isValidProduct).length := by
    rw [scrapeProductsModel_store]
    have := (processProducts_spec (pItems.filter isValidProduct) emptyStore).1
    rw [this]
    simp [emptyStore]
  have hpb : (scrapeProductsModel pItems emptyStore).1.books = [] := by
    rw [scrapeProductsModel_store]
    exact (processProducts_spec (pItems.filter isValidProduct) emptyStore).2.1
  have hbs : (scrapeBooksModel bItems
      (scrapeProductsModel pItems emptyStore).1).1.books.length =
      (bItems.filter isValidBook).length := by
    rw [scrapeBooksModel_store]
    have := (processBooks_spec (bItems.filter isValidBook)
      (scrapeProductsModel pItems emptyStore).1).1
    rw [this, hpb]
    simp
  have hbp : (scrapeBooksModel bItems
      (scrapeProductsModel pItems emptyStore).1).1.products =
      (scrapeProductsModel pItems emptyStore).1.products := by
    rw [scrapeBooksModel_store]
    exact (processBooks_spec (bItems.filter isValidBook)
      (scrapeProductsModel pItems emptyStore).1).2.1
  have hfp : (runAll pItems bItems fBuckets).store.products =
      (scrapeProductsModel pItems emptyStore).1.products := by
    rw [hstore, scrapeFilmsModel_store, (processFilmYears_frame _ _).1, hbp]
  have hfb : (runAll pItems bItems fBuckets).store.books.length =
      (bItems.filter isValidBook).length := by
    rw [hstore, scrapeFilmsModel_store, (processFilmYears_frame _ _).2]
    exact hbs
  have hlenp : (runAll pItems bItems fBuckets).store.products.length =
      (pItems.filter isValidProduct).length := by
    rw [hfp]
    exact hps
  refine ⟨hlenp, hfb, ?_, ?_⟩
  · have hne : (runAll pItems bItems fBuckets).store.products ≠ [] := by
      intro h0
      rw [h0] at hlenp
      exact hp (List.length_eq_zero.mp hlenp.symm)
    have hmem := mem_toDataframes_products _ hne
    rwa [hlenp] at hmem
  · have hne : (runAll pItems bItems fBuckets).store.books ≠ [] := by
      intro h0
      rw [h0] at hfb
      exact hb (List.length_eq_zero.mp hfb.symm)
    have hmem := mem_toDataframes_books _ hne
    rwa [hfb] at hmem

theorem scrapeFilmsModel_err_eq (buckets : List (Int × List FilmItem)) (s : Store)
    {e : SkipRateError FilmItem}
    (h : checkSkipRate ((buckets.map (fun yb => yb.2.length)).sum)
        (((buckets.map (fun yb => (yb.1, yb.2.filter isValidFilm))).map
          (fun yb => yb.2.length)).sum)
        ((buckets.map (fun yb => yb.2.filter (fun i => ! isValidFilm i))).flatten) =
      Except.error e) :
    (scrapeFilmsModel buckets s).2 = some e := by
  simp only [scrapeFilmsModel]
  rw [h]

/-- Products fed to the C3 witness run: one valid product. -/
def c3Products : List ProductItem :=
  [ProductItem.mk "Widget" 2 (some "Gadgets") (some "p1")]

/-- Books fed to the C3 witness run: one valid book. -/
def c3Books : List BookItem :=
  [BookItem.mk (some "Sapiens") (some "Yuval Noah Harari") none false
    ["History"] 10 "In stock" 4 ""]

/-- The film candidate whose sentinel title trips the films Gate. -/
def c3BadFilm : FilmItem := FilmItem.mk "Unknown" none none [] false 0

/-- Film year buckets fed to the C3 witness run: one rejected film, so
`found = 1, accepted = 0`, skip rate 100 % > 5 %. -/
def c3Films : List (Int × List FilmItem) := [(2010, [c3BadFilm])]

/-- C3 witness: with the concrete inputs above, the films pipeline's Gate
raises, the error is captured in the run result, and the table set still
contains the one-row `INV_MAST` and `BK_CATALOG` tables. -/
theorem run_all_isolation_witness :
    c3Products.filter isValidProduct ≠ [] ∧
    c3Books.filter isValidBook ≠ [] ∧
    ∃ e, (runAll c3Products c3Books c3Films).filmErr = some e ∧
      ("INV_MAST", 1) ∈ toDataframes (runAll c3Products c3Books c3Films).store ∧
      ("BK_CATALOG", 1) ∈ toDataframes (runAll c3Products c3Books c3Films).store := by
  have hkey : checkSkipRate ((c3Films.map (fun yb => yb.2.length)).sum)
      (((c3Films.map (fun yb => (yb.1, yb.2.filter isValidFilm))).map
        (fun yb => yb.2.length)).sum)
      ((c3Films.map (fun yb => yb.2.filter (fun i => ! isValidFilm i))).flatten) =
      Except.error ⟨1, 0, ((1 : ℚ) - (0 : ℚ)) / (1 : ℚ) * 100, [c3BadFilm]⟩ := by
    rw [show ((c3Films.map (fun yb => yb.2.length)).sum) = 1 from rfl,
      show (((c3Films.map (fun yb => (yb.1, yb.2.filter isValidFilm))).map
        (fun yb => yb.2.length)).sum) = 0 from rfl,
      show ((c3Films.map (fun yb => yb.2.filter (fun i => ! isValidFilm i))).flatten) =
        [c3BadFilm] from rfl]
    simp only [checkSkipRate]
    rw [if_neg (by norm_num), if_pos (by push_cast; norm_num)]
    rfl
  have hferr : (runAll c3Products c3Books c3Films).filmErr =
      some ⟨1, 0, ((1 : ℚ) - (0 : ℚ)) / (1 : ℚ) * 100, [c3BadFilm]⟩ :=
    scrapeFilmsModel_err_eq c3Films _ hkey
  have h := run_all_isolation c3Products c3Books c3Films _ hferr (by decide) (by decide)
  have hl1 : (c3Products.filter isValidProduct).length = 1 := by decide
  have hl2 : (c3Books.filter isValidBook).length = 1 := by decide
  refine ⟨by decide, by decide, _, hferr, ?_, ?_⟩
  · have := h.2.2.1
    rwa [hl1] at this
  · have := h.2.2.2
    rwa [hl2] at this

end SemanticTalk
